import Mathlib

set_option maxHeartbeats 1000000

namespace Py4DSTEM

/-!
Shallow embedding of `py4DSTEM/process/datastructure/dataobject.py`:
the `DataObject` class (provenance links and modification log) and the
`DataObjectTracker` class (the per-RawDataCube registry), together with the
mutually recursive registration protocol `new_parent` / `new_dataobject`.

Python objects live on a heap and are compared by identity; we model the heap
as association lists from numeric object identities to object states, and a
reference is the identity itself.  The global `logger.log_index` counter
(the external collaborator `..log.Logger`) is a read-only field of the world
state.  A raised Python exception aborts the operation immediately; it is
modelled with `Except Err`, and no claim observes the heap after an exception.
A fuel parameter makes the mutually recursive protocol a structurally
recursive (hence kernel-computable) function; the termination claim exhibits
an explicit fuel bound beyond which the result is always delivered.
-/

abbrev ObjId := Nat
abbrev TrackerId := Nat

inductive Err where
  | typeError
  | assertionError
  | indexError
  | invalidRef
deriving DecidableEq

/-- One element of `DataObjectTracker.dataobject_list`: the Python tuple
`(index, name, objecttype, dataobject)` appended by `new_dataobject`.
`objecttype` models `type(dataobject)` as a numeric type tag. -/
structure Entry where
  index : Nat
  name : String
  objecttype : Nat
  dataobject : ObjId
deriving DecidableEq

/-- State of one `DataObject` instance.  `dataobjecttracker` is `some` exactly
when the instance has a `dataobjecttracker` attribute (only RawDataCube-like
instances do; `get_dataobjecttrackers` catches the `AttributeError` for the
others).  `ty` models `type(self)`, and `save_behavior` is the default flag
stored by `__init__`. -/
structure DObj where
  name : String
  save_behavior : Bool
  parents_and_save_behavior : List (ObjId × Bool)
  modification_log : List Int
  dataobjecttracker : Option TrackerId
  ty : Nat
deriving DecidableEq

/-- State of one `DataObjectTracker` instance: the owning RawDataCube and the
ordered `dataobject_list` of tuples. -/
structure Tracker where
  rawdatacube : ObjId
  dataobject_list : List Entry
deriving DecidableEq

/-- The heap, plus the external `Logger.log_index` counter. -/
structure World where
  objs : List (ObjId × DObj)
  trackers : List (TrackerId × Tracker)
  logIndex : Int
deriving DecidableEq

/-- `DataObject.get_parent_list`: `[item[0] for item in self.parents_and_save_behavior]`. -/
def get_parent_list (d : DObj) : List ObjId :=
  d.parents_and_save_behavior.map Prod.fst

/-- `DataObject.has_parent`: `datacube in self.get_parent_list()` (identity comparison). -/
def has_parent (d : DObj) (datacube : ObjId) : Bool :=
  decide (datacube ∈ get_parent_list d)

/-- `DataObjectTracker.contains_dataobject`: `dataobject in [tup[3] for tup in self.dataobject_list]`. -/
def contains_dataobject (tr : Tracker) (dataobject : ObjId) : Bool :=
  decide (dataobject ∈ tr.dataobject_list.map Entry.dataobject)

/-- `DataObject.change_save_behavior` always raises.  After the `assert`
succeeds, `index = self.get_parent_list().index()` calls `list.index` with no
argument, a `TypeError`; (and even with the argument,
`self.parents_and_save_behavior[index][1] = save_behavior` would assign into a
tuple, also a `TypeError`).  If the `assert` fails it raises `AssertionError`. -/
def change_save_behavior (d : DObj) (parent : ObjId) : Except Err Unit :=
  if parent ∈ get_parent_list d then .error .typeError
  else .error .assertionError

/-- `DataObject.get_save_behavior`: `assert parent in self.get_parent_list()`,
then `index = self.get_parent_list().index(parent)` (position of the first
occurrence) and `return self.parents_and_save_behavior[index][1]`; i.e. the
second component of the first pair whose first component is `parent`. -/
def get_save_behavior (d : DObj) (parent : ObjId) : Except Err Bool :=
  match d.parents_and_save_behavior.find? (fun q => q.1 == parent) with
  | some q => .ok q.2
  | none => .error .assertionError

/-- `DataObject.get_dataobjecttrackers(dataobject)`: the `dataobjecttracker`
attribute of `dataobject` if present, followed by the `dataobjecttracker`
attributes of the members of `dataobject.get_parent_list()` that have one
(each `AttributeError` is caught and skipped).  No recursive search. -/
def get_dataobjecttrackers (w : World) (dataobject : ObjId) : List TrackerId :=
  match w.objs.lookup dataobject with
  | none => []
  | some d =>
    (match d.dataobjecttracker with
     | some t => [t]
     | none => []) ++
    (get_parent_list d).filterMap fun parent =>
      match w.objs.lookup parent with
      | some q => q.dataobjecttracker
      | none => none

/-- Heap update of one `DataObject` cell (Python attribute mutation on the
object with identity `id`). -/
def updateObj (w : World) (id : ObjId) (f : DObj → DObj) : World :=
  { w with objs := w.objs.map fun p => if p.1 = id then (p.1, f p.2) else p }

/-- Heap update of one `DataObjectTracker` cell. -/
def updateTracker (w : World) (id : TrackerId) (f : Tracker → Tracker) : World :=
  { w with trackers := w.trackers.map fun p => if p.1 = id then (p.1, f p.2) else p }

/-- The append performed by `new_dataobject` (lines 163-170):
`index = len(self.dataobject_list)`, `name = kwargs['name']` if given else
`dataobject.name`, `objecttype = type(dataobject)`, then
`self.dataobject_list.append((index, name, objecttype, dataobject))`. -/
def appendEntryW (w : World) (tId : TrackerId) (dId : ObjId) (nameKw : Option String) : World :=
  match w.objs.lookup dId with
  | none => w
  | some d =>
    updateTracker w tId fun tr =>
      { tr with dataobject_list :=
          tr.dataobject_list ++ [⟨tr.dataobject_list.length, nameKw.getD d.name, d.ty, dId⟩] }

/-- The guard `if not dataobject in self.dataobject_list` in `new_dataobject`.
CPython compares the `DataObject` against each 4-tuple in the list; `DataObject`
defines no `__eq__`, so the comparison falls back to identity and a
`DataObject` instance is never equal to a tuple: the membership test is
always `False` (and the append always runs).  `contains_dataobject` above is
the method that projects `tup[3]` before testing. -/
def dataobject_in_tuple_list (_dataobject : ObjId) (_l : List Entry) : Bool := false

/-- Internal call descriptor for the mutually recursive registration protocol:
`new_parent`, its tracker `for`-loop, and `new_dataobject`. -/
inductive Call where
  | npCall (selfId : ObjId) (parent : Option ObjId) (sbKw : Option Bool)
  | rtCall (ts : List TrackerId) (selfId : ObjId) (save_behavior : Bool)
  | ndCall (tId : TrackerId) (dId : ObjId) (nameKw : Option String) (sbKw : Option Bool)

/-- One interpreter for the three mutually recursive pieces of the protocol,
structurally recursive on fuel (`none` = fuel exhausted; the termination claim
shows enough fuel always exists).

`npCall` is `DataObject.new_parent(self, parent, **kwargs)`:
`save_behavior = kwargs['save_behavior']` if given else `self.save_behavior`;
if `parent is None` do nothing; else if `parent` is not in the parent list,
append `(parent, save_behavior)`, otherwise call `change_save_behavior`
(which raises); then loop over `self.get_dataobjecttrackers(parent)` and for
each tracker not containing `self`, call
`tracker.new_dataobject(self, save_behavior=save_behavior)`.

`rtCall` is that `for` loop.

`ndCall` is `DataObjectTracker.new_dataobject(self, dataobject, **kwargs)`:
`assert isinstance(dataobject, DataObject)` (an unresolvable reference models
a non-DataObject argument, `AssertionError`); the always-true append guard
(see `dataobject_in_tuple_list`); then, if the dataobject does not have
`self.rawdatacube` as a parent: with a `save_behavior` kwarg present the code
executes `dataobject.new_parent(self.rawdatacube, kwargs['save_behavior'])`,
passing two positional arguments to a function of one positional parameter —
an immediate `TypeError`; without the kwarg it calls
`dataobject.new_parent(self.rawdatacube)`. -/
def protoStep : Nat → World → Call → Option (Except Err World)
  | 0, _, _ => none
  | fuel + 1, w, .npCall selfId parent sbKw =>
    match w.objs.lookup selfId with
    | none => some (.error .invalidRef)
    | some d =>
      let save_behavior := sbKw.getD d.save_behavior
      match parent with
      | none => some (.ok w)
      | some p =>
        if p ∈ get_parent_list d then
          match change_save_behavior d p with
          | .error e => some (.error e)
          | .ok _ => some (.ok w)
        else
          let w1 := updateObj w selfId fun d0 =>
            { d0 with parents_and_save_behavior :=
                d0.parents_and_save_behavior ++ [(p, save_behavior)] }
          protoStep fuel w1 (.rtCall (get_dataobjecttrackers w1 p) selfId save_behavior)
  | fuel + 1, w, .rtCall ts selfId save_behavior =>
    match ts with
    | [] => some (.ok w)
    | t :: rest =>
      let c := match w.trackers.lookup t with
               | some tr => contains_dataobject tr selfId
               | none => false
      if c then protoStep fuel w (.rtCall rest selfId save_behavior)
      else
        match protoStep fuel w (.ndCall t selfId none (some save_behavior)) with
        | none => none
        | some (.error e) => some (.error e)
        | some (.ok w1) => protoStep fuel w1 (.rtCall rest selfId save_behavior)
  | fuel + 1, w, .ndCall tId dId nameKw sbKw =>
    match w.objs.lookup dId with
    | none => some (.error .assertionError)
    | some d =>
      match w.trackers.lookup tId with
      | none => some (.error .invalidRef)
      | some tr =>
        let w1 := if dataobject_in_tuple_list dId tr.dataobject_list then w
                  else appendEntryW w tId dId nameKw
        if has_parent d tr.rawdatacube then some (.ok w1)
        else
          match sbKw with
          | some _ => some (.error .typeError)
          | none => protoStep fuel w1 (.npCall dId (some tr.rawdatacube) none)

/-- `DataObject.new_parent` (line 60). -/
def new_parent (fuel : Nat) (w : World) (selfId : ObjId) (parent : Option ObjId)
    (sbKw : Option Bool) : Option (Except Err World) :=
  protoStep fuel w (.npCall selfId parent sbKw)

/-- The tracker `for` loop of `new_parent` (lines 74-76). -/
def run_trackers (fuel : Nat) (ts : List TrackerId) (w : World) (selfId : ObjId)
    (save_behavior : Bool) : Option (Except Err World) :=
  protoStep fuel w (.rtCall ts selfId save_behavior)

/-- `DataObjectTracker.new_dataobject` (line 160). -/
def new_dataobject (fuel : Nat) (w : World) (tId : TrackerId) (dId : ObjId)
    (nameKw : Option String) (sbKw : Option Bool) : Option (Except Err World) :=
  protoStep fuel w (.ndCall tId dId nameKw sbKw)

/-- `DataObject.log_modification`: `index = self.get_current_log_index() - 1;
self.modification_log.append(index)`, where `get_current_log_index` reads the
global `logger.log_index`. -/
def log_modification (w : World) (selfId : ObjId) : World :=
  updateObj w selfId fun d =>
    { d with modification_log := d.modification_log ++ [w.logIndex - 1] }

/-- `DataObject.__init__(self, parent, save_behavior=True, name='')`: store
`save_behavior` and `name`, start with an empty parent list, call
`self.new_parent(parent=parent, save_behavior=self.save_behavior)`, then
create `modification_log` and call `self.log_modification()`.  The fresh cell
is inserted with an empty `modification_log` up front; the source only binds
that attribute after `new_parent` returns, but nothing reads or writes it in
between, and a plain `DataObject` has no `dataobjecttracker` attribute. -/
def DataObject_init (fuel : Nat) (w : World) (newId : ObjId) (ty : Nat)
    (parent : Option ObjId) (save_behavior : Bool) (name : String) :
    Option (Except Err World) :=
  let w0 : World := { w with objs := (newId, ⟨name, save_behavior, [], [], none, ty⟩) :: w.objs }
  match new_parent fuel w0 newId parent (some save_behavior) with
  | none => none
  | some (.error e) => some (.error e)
  | some (.ok w1) => some (.ok (log_modification w1 newId))

/-- `DataObjectTracker.get_dataobjects` (non-formatted mode): returns
`self.dataobject_list`. -/
def get_dataobjects (tr : Tracker) : List Entry := tr.dataobject_list

/-- `DataObjectTracker.sort_dataobjects_by_name` (non-formatted mode):
`[tup for tup in self.dataobject_list if tup[1] != ''] +
 [tup for tup in self.dataobject_list if tup[1] == '']`. -/
def sort_dataobjects_by_name (tr : Tracker) : List Entry :=
  tr.dataobject_list.filter (fun tup => tup.name != "") ++
  tr.dataobject_list.filter (fun tup => tup.name == "")

/-- `DataObjectTracker.sort_dataobjects_by_type` (non-formatted mode): with no
argument, collect the distinct types in order of first appearance, then
concatenate the per-type filtered sublists; with an argument, filter to that
exact type. -/
def sort_dataobjects_by_type (tr : Tracker) (objecttype : Option Nat) : List Entry :=
  match objecttype with
  | none =>
    let types := tr.dataobject_list.foldl
      (fun types tup => if tup.objecttype ∈ types then types else types ++ [tup.objecttype]) []
    types.foldl (fun l ty => l ++ tr.dataobject_list.filter (fun tup => tup.objecttype == ty)) []
  | some ty => tr.dataobject_list.filter (fun tup => tup.objecttype == ty)

/-- The Python substring test `needle in hay` on strings. -/
def py_str_in (needle hay : String) : Bool :=
  (List.range (hay.toList.length + 1)).any fun i => needle.toList.isPrefixOf (hay.toList.drop i)

/-- `DataObjectTracker.get_object_by_name` (non-formatted mode):
`[tup[3] for tup in self.dataobject_list if name == tup[1]]` when
`exactmatch`, else `[tup[3] for tup in self.dataobject_list if name in tup[1]]`. -/
def get_object_by_name (tr : Tracker) (name : String) (exactmatch : Bool) : List ObjId :=
  if exactmatch then
    (tr.dataobject_list.filter fun tup => name == tup.name).map Entry.dataobject
  else
    (tr.dataobject_list.filter fun tup => py_str_in name tup.name).map Entry.dataobject

/-- CPython list subscription `l[i]` with an `int` index: a negative index has
the length added once; if the result is in `[0, len)` the element is returned,
otherwise `IndexError` is raised. -/
def pyListGet {α : Type} (l : List α) (i : Int) : Except Err α :=
  let j : Int := if i < 0 then i + l.length else i
  if h : 0 ≤ j ∧ j < (l.length : Int) then
    .ok (l.get ⟨j.toNat, by omega⟩)
  else .error .indexError

/-- `DataObjectTracker.get_object_by_index` (non-formatted mode):
`return self.dataobject_list[index][3]`. -/
def get_object_by_index (tr : Tracker) (index : Int) : Except Err ObjId :=
  (pyListGet tr.dataobject_list index).map Entry.dataobject

/-- The query surface of a registry, in non-formatted mode (the `show=True`
branch of the `show_object_list` decorator only prints the already-computed
sequence to stdout and is presentation, outside this embedding). -/
inductive Query where
  | listAll (tId : TrackerId)
  | sortByName (tId : TrackerId)
  | sortByType (tId : TrackerId) (objecttype : Option Nat)
  | findByName (tId : TrackerId) (name : String) (exactmatch : Bool)
  | getByIndex (tId : TrackerId) (index : Int)
  | containsQ (tId : TrackerId) (dId : ObjId)

inductive QueryResult where
  | entries (l : List Entry)
  | objects (l : List ObjId)
  | object (o : ObjId)
  | flag (b : Bool)
deriving DecidableEq

/-- Running one query against the world: the Python methods only read
`self.dataobject_list` (and, for `contains`, compare references), so the
returned world is the input world; each line of each method is a read. -/
def runQuery (w : World) (q : Query) : Except Err QueryResult × World :=
  match q with
  | .listAll t =>
    (match w.trackers.lookup t with
     | some tr => .ok (.entries (get_dataobjects tr))
     | none => .error .invalidRef, w)
  | .sortByName t =>
    (match w.trackers.lookup t with
     | some tr => .ok (.entries (sort_dataobjects_by_name tr))
     | none => .error .invalidRef, w)
  | .sortByType t ty =>
    (match w.trackers.lookup t with
     | some tr => .ok (.entries (sort_dataobjects_by_type tr ty))
     | none => .error .invalidRef, w)
  | .findByName t nm ex =>
    (match w.trackers.lookup t with
     | some tr => .ok (.objects (get_object_by_name tr nm ex))
     | none => .error .invalidRef, w)
  | .getByIndex t i =>
    (match w.trackers.lookup t with
     | some tr => (get_object_by_index tr i).map .object
     | none => .error .invalidRef, w)
  | .containsQ t d =>
    (match w.trackers.lookup t with
     | some tr => .ok (.flag (contains_dataobject tr d))
     | none => .error .invalidRef, w)

/-! ## Generic lemmas about the heap representation -/

deriving instance DecidableEq for Except

theorem lookup_cons' {β : Type} (k j : Nat) (v : β) (t : List (Nat × β)) :
    List.lookup j ((k, v) :: t) = if j = k then some v else List.lookup j t := by
  by_cases h : j = k
  · simp [List.lookup, h]
  · have hb : (j == k) = false := by simp [h]
    simp [List.lookup, h, hb]

theorem lookup_map_update {β : Type} (l : List (Nat × β)) (i j : Nat) (f : β → β) :
    (l.map fun p => if p.1 = i then (p.1, f p.2) else p).lookup j =
      if j = i then (l.lookup i).map f else l.lookup j := by
  induction l with
  | nil => by_cases h : j = i <;> simp [List.lookup, h]
  | cons q t ih =>
    rcases q with ⟨k, v⟩
    by_cases hq : k = i <;> by_cases hj : j = k <;> by_cases hji : j = i <;>
      simp_all [lookup_cons', List.map_cons]

theorem lookup_updateObj (w : World) (id j : ObjId) (f : DObj → DObj) :
    (updateObj w id f).objs.lookup j =
      if j = id then (w.objs.lookup id).map f else w.objs.lookup j := by
  simp [updateObj, lookup_map_update]

theorem lookup_updateTracker (w : World) (id j : TrackerId) (f : Tracker → Tracker) :
    (updateTracker w id f).trackers.lookup j =
      if j = id then (w.trackers.lookup id).map f else w.trackers.lookup j := by
  simp [updateTracker, lookup_map_update]

/-! ## Claims about the query surface -/

/-- Claim C7: whenever `log_modification` runs while the event counter reads
`k`, the value appended to the artifact's `modification_log` is `k - 1`; and
in the concrete scenario, constructing an artifact with no origin while the
counter reads 5 yields `modification_log = [4]`, and a later
`log_modification` with the counter at 9 yields `[4, 8]`. -/
theorem C7_logging_offset :
    (∀ (w : World) (dId : ObjId) (d : DObj), w.objs.lookup dId = some d →
      (log_modification w dId).objs.lookup dId =
        some { d with modification_log := d.modification_log ++ [w.logIndex - 1] }) ∧
    DataObject_init 3 ⟨[], [], 5⟩ 0 0 none true "" =
      some (.ok ⟨[(0, ⟨"", true, [], [4], none, 0⟩)], [], 5⟩) ∧
    log_modification ⟨[(0, ⟨"", true, [], [4], none, 0⟩)], [], 9⟩ 0 =
      ⟨[(0, ⟨"", true, [], [4, 8], none, 0⟩)], [], 9⟩ := by
  refine ⟨?_, by decide, by decide⟩
  intro w dId d h
  simp [log_modification, lookup_updateObj, h]

/-- Claim C7 witness: the general law instantiated at a one-object world with
the counter at 12. -/
theorem C7_witness :
    (log_modification ⟨[(3, ⟨"w", true, [], [2], none, 0⟩)], [], 12⟩ 3).objs.lookup 3 =
      some ⟨"w", true, [], [2, 11], none, 0⟩ :=
  C7_logging_offset.1 ⟨[(3, ⟨"w", true, [], [2], none, 0⟩)], [], 12⟩ 3
    ⟨"w", true, [], [2], none, 0⟩ (by decide)

/-- Claim C8: `sort_dataobjects_by_name` is the stable partition of the entry
list by "has a non-empty name": its output is exactly the first and second
components of `List.partition` (named entries in insertion order, then
unnamed entries in insertion order), concatenated. -/
theorem C8_sort_by_name_stable_partition (tr : Tracker) :
    sort_dataobjects_by_name tr =
      (tr.dataobject_list.partition fun tup => tup.name != "").1 ++
      (tr.dataobject_list.partition fun tup => tup.name != "").2 := by
  simp only [sort_dataobjects_by_name, List.partition_eq_filter_filter]
  congr 1
  apply List.filter_congr
  intro x _
  simp [bne, Function.comp, Bool.not_not]

/-- Claim C9, counterexample: the claim says `get_by_index` fails with
`IndexOutOfRangeError` for every index that is not a valid position
(`0 <= index < len(entries)`); but on a registry with one entry, the invalid
position `-1` does not fail — CPython resolves it to the last element. -/
theorem C9_counterexample :
    ¬ (0 ≤ (-1 : Int)) ∧
    get_object_by_index ⟨5, [⟨0, "x", 3, 7⟩]⟩ (-1) = .ok 7 := by
  constructor
  · decide
  · rfl

/-- The amended positional lookup, written from the corrected claim: an index
in `[0, len)` returns the entry at that position, an index in `[-len, 0)`
returns the entry at position `index + len`, and every other index fails with
`IndexError`. -/
def get_object_by_index_spec (tr : Tracker) (i : Int) : Except Err ObjId :=
  if h : 0 ≤ i ∧ i < (tr.dataobject_list.length : Int) then
    .ok (tr.dataobject_list.get ⟨i.toNat, by omega⟩).dataobject
  else if h2 : -(tr.dataobject_list.length : Int) ≤ i ∧ i < 0 then
    .ok (tr.dataobject_list.get ⟨(i + tr.dataobject_list.length).toNat, by omega⟩).dataobject
  else .error .indexError

/-- Claim C9, amended: `get_object_by_index` returns the entry at position
`index` when `0 <= index < len`, the entry at position `index + len` when
`-len <= index < 0`, and fails with `IndexError` exactly when
`index < -len` or `index >= len`. -/
theorem C9_python_index_amended (tr : Tracker) (i : Int) :
    get_object_by_index tr i = get_object_by_index_spec tr i := by
  simp only [get_object_by_index, pyListGet, get_object_by_index_spec]
  by_cases hneg : i < 0
  · simp only [if_pos hneg]
    by_cases hin : 0 ≤ i + (tr.dataobject_list.length : Int) ∧
        i + (tr.dataobject_list.length : Int) < (tr.dataobject_list.length : Int)
    · rw [dif_pos hin, dif_neg (by omega), dif_pos (by omega)]
      rfl
    · rw [dif_neg hin, dif_neg (by omega), dif_neg (by omega)]
      rfl
  · simp only [if_neg hneg]
    by_cases hin : 0 ≤ i ∧ i < (tr.dataobject_list.length : Int)
    · rw [dif_pos hin, dif_pos hin]
      rfl
    · rw [dif_neg hin, dif_neg hin, dif_neg (by omega)]
      rfl

/-- Claim C10: every query operation, in its non-formatted mode, leaves the
whole world unchanged: the registries (their `rawdatacube` owner and
`dataobject_list` entries), every artifact (its `parents_and_save_behavior`
origin links and `modification_log`), and the counter. -/
theorem C10_queries_pure (w : World) (q : Query) :
    (runQuery w q).2.trackers = w.trackers ∧
    (runQuery w q).2.objs = w.objs ∧
    (runQuery w q).2.logIndex = w.logIndex := by
  cases q <;> exact ⟨rfl, rfl, rfl⟩

/-! ## The two crashing paths (claims C2 and C3) -/

/-- Claim C2 (code bug): with artifact `a` (id 0) and origin `o` (id 1, owning
registry 0), the first `add_origin(o, b1)` succeeds and links both sides, but
the second `add_origin(o, b2)` raises `TypeError` inside
`change_save_behavior` (`self.get_parent_list().index()` is called with no
argument) instead of updating the stored flag to `b2`. -/
theorem C2_change_save_behavior_bug :
    new_parent 5 ⟨[(0, ⟨"a", true, [], [], none, 1⟩), (1, ⟨"o", true, [], [], some 0, 0⟩)],
        [(0, ⟨1, []⟩)], 3⟩ 0 (some 1) (some true) =
      some (.ok ⟨[(0, ⟨"a", true, [(1, true)], [], none, 1⟩),
                  (1, ⟨"o", true, [], [], some 0, 0⟩)],
        [(0, ⟨1, [⟨0, "a", 1, 0⟩]⟩)], 3⟩) ∧
    new_parent 5 ⟨[(0, ⟨"a", true, [(1, true)], [], none, 1⟩),
                   (1, ⟨"o", true, [], [], some 0, 0⟩)],
        [(0, ⟨1, [⟨0, "a", 1, 0⟩]⟩)], 3⟩ 0 (some 1) (some false) =
      some (.error .typeError) := by
  constructor
  · decide
  · decide

/-- Claim C3 (code bug): artifact `a` (id 0) is already linked to `o1` (id 1,
registry 0); `o2` (id 2) owns registry 1, which does not contain `a`.
Registering `a` there with an explicit `save_behavior=False` appends the
entry, then raises `TypeError`: `new_dataobject` passes the save behavior as
a second positional argument to `new_parent`, which only accepts keyword
arguments after `parent`.  The claimed normal termination with both links
established does not happen. -/
theorem C3_register_save_behavior_bug :
    new_dataobject 5 ⟨[(0, ⟨"a", true, [(1, true)], [], none, 7⟩),
                       (1, ⟨"o1", true, [], [], some 0, 0⟩),
                       (2, ⟨"o2", true, [], [], some 1, 0⟩)],
        [(0, ⟨1, [⟨0, "a", 7, 0⟩]⟩), (1, ⟨2, []⟩)], 3⟩ 1 0 none (some false) =
      some (.error .typeError) := by
  decide

/-- Claim C6, counterexample: artifact `a` (id 0) already has parent `g`
(id 2); the new origin `o` (id 1) owns registry 0 and itself has parent `g`,
who owns registry 1.  `a` owns no registry.  `a.add_origin(o, true)` completes
and registers `a` not only in `o`'s registry but also in registry 1 — owned by
`g`, which is neither `a` nor `o` — contradicting "no other registry is
touched". -/
theorem C6_counterexample :
    new_parent 5 ⟨[(0, ⟨"a", true, [(2, true)], [], none, 7⟩),
                   (1, ⟨"o", true, [(2, true)], [], some 0, 0⟩),
                   (2, ⟨"g", true, [], [], some 1, 0⟩)],
        [(0, ⟨1, []⟩), (1, ⟨2, []⟩)], 3⟩ 0 (some 1) (some true) =
      some (.ok ⟨[(0, ⟨"a", true, [(2, true), (1, true)], [], none, 7⟩),
                  (1, ⟨"o", true, [(2, true)], [], some 0, 0⟩),
                  (2, ⟨"g", true, [], [], some 1, 0⟩)],
        [(0, ⟨1, [⟨0, "a", 7, 0⟩]⟩), (1, ⟨2, [⟨0, "a", 7, 0⟩]⟩)], 3⟩) ∧
    ((⟨[(0, ⟨"a", true, [(2, true)], [], none, 7⟩),
        (1, ⟨"o", true, [(2, true)], [], some 0, 0⟩),
        (2, ⟨"g", true, [], [], some 1, 0⟩)],
        [(0, ⟨1, []⟩), (1, ⟨2, []⟩)], 3⟩ : World).objs.lookup 0).map
          DObj.dataobjecttracker = some none ∧
    (⟨[(0, ⟨"a", true, [(2, true)], [], none, 7⟩),
       (1, ⟨"o", true, [(2, true)], [], some 0, 0⟩),
       (2, ⟨"g", true, [], [], some 1, 0⟩)],
       [(0, ⟨1, []⟩), (1, ⟨2, []⟩)], 3⟩ : World).trackers.lookup 1 = some ⟨2, []⟩ := by
  refine ⟨by decide, by decide, by decide⟩

/-! ## Termination of the mutual recursion (claim C5)

The code can recurse at most as `new_dataobject` (no kwarg) → `new_parent` →
tracker loop → `new_dataobject` (with the `save_behavior` kwarg, which either
returns or raises before any further call).  We exhibit explicit fuel bounds,
computed from the world, beyond which the interpreter always delivers a
result. -/

/-- Fuel sufficient for a `new_parent` call: 1, plus, when a parent is given,
one step per tracker the one-hop collection can return (at most one for the
parent itself plus one per element of its parent list, plus one for the
freshly appended pair when the object is its own parent). -/
def npBound (w : World) (parent : Option ObjId) : Nat :=
  match parent with
  | none => 1
  | some p =>
    4 + (match w.objs.lookup p with
         | some q => q.parents_and_save_behavior.length
         | none => 0)

/-- Fuel sufficient for a `new_dataobject` call: one step plus the bound for
the `new_parent` call it may make on the tracker's owner. -/
def ndBound (w : World) (tId : TrackerId) : Nat :=
  match w.trackers.lookup tId with
  | some tr => 1 + npBound w (some tr.rawdatacube)
  | none => 1

theorem appendEntryW_objs (w : World) (tId : TrackerId) (dId : ObjId) (nameKw : Option String) :
    (appendEntryW w tId dId nameKw).objs = w.objs := by
  unfold appendEntryW
  cases w.objs.lookup dId <;> rfl

theorem npBound_congr_objs (w w' : World) (p : Option ObjId) (h : w'.objs = w.objs) :
    npBound w' p = npBound w p := by
  cases p <;> simp [npBound, h]

theorem get_dataobjecttrackers_length (w : World) (dId : ObjId) (q : DObj)
    (h : w.objs.lookup dId = some q) :
    (get_dataobjecttrackers w dId).length ≤ 1 + q.parents_and_save_behavior.length := by
  unfold get_dataobjecttrackers
  rw [h]
  simp only [List.length_append]
  have h1 : (match q.dataobjecttracker with
             | some t => [t]
             | none => ([] : List TrackerId)).length ≤ 1 := by
    cases q.dataobjecttracker <;> simp
  have h2 := List.length_filterMap_le
    (fun parent => match w.objs.lookup parent with
                   | some q2 => q2.dataobjecttracker
                   | none => none) (get_parent_list q)
  have h3 : (get_parent_list q).length = q.parents_and_save_behavior.length := by
    simp [get_parent_list]
  omega

theorem get_dataobjecttrackers_length_none (w : World) (dId : ObjId)
    (h : w.objs.lookup dId = none) : (get_dataobjecttrackers w dId).length = 0 := by
  unfold get_dataobjecttrackers
  rw [h]
  rfl

theorem nd_kw_isSome (fuel : Nat) (w : World) (tId : TrackerId) (dId : ObjId)
    (nameKw : Option String) (b : Bool) (h : 1 ≤ fuel) :
    (new_dataobject fuel w tId dId nameKw (some b)).isSome = true := by
  cases fuel with
  | zero => omega
  | succ f =>
    simp only [new_dataobject, protoStep]
    cases w.objs.lookup dId with
    | none => rfl
    | some d =>
      cases w.trackers.lookup tId with
      | none => rfl
      | some tr =>
        simp only
        cases has_parent d tr.rawdatacube <;> simp [dataobject_in_tuple_list]

theorem rt_isSome (ts : List TrackerId) :
    ∀ (fuel : Nat) (w : World) (selfId : ObjId) (sb : Bool), ts.length + 1 ≤ fuel →
      (run_trackers fuel ts w selfId sb).isSome = true := by
  induction ts with
  | nil =>
    intro fuel w selfId sb h
    cases fuel with
    | zero => omega
    | succ f => rfl
  | cons t rest ih =>
    intro fuel w selfId sb h
    cases fuel with
    | zero => simp at h
    | succ f =>
      simp only [run_trackers, protoStep]
      have hf : rest.length + 1 ≤ f := by simp at h; omega
      split
      · exact ih f w selfId sb hf
      · have hnd := nd_kw_isSome f w t selfId none sb (by omega)
        cases hnd' : new_dataobject f w t selfId none (some sb) with
        | none => rw [hnd'] at hnd; simp at hnd
        | some r =>
          cases r with
          | error e => simp only [new_dataobject] at hnd'; rw [hnd']; rfl
          | ok w1 =>
            simp only [new_dataobject] at hnd'
            rw [hnd']
            exact ih f w1 selfId sb hf

theorem np_isSome (fuel : Nat) (w : World) (selfId : ObjId) (parent : Option ObjId)
    (sbKw : Option Bool) (h : npBound w parent ≤ fuel) :
    (new_parent fuel w selfId parent sbKw).isSome = true := by
  cases fuel with
  | zero => cases parent <;> simp [npBound] at h
  | succ f =>
    simp only [new_parent, protoStep]
    cases hd : w.objs.lookup selfId with
    | none => rfl
    | some d =>
      cases parent with
      | none => rfl
      | some p =>
        simp only
        by_cases hp : p ∈ get_parent_list d
        · rw [if_pos hp]
          simp [change_save_behavior, hp]
        · rw [if_neg hp]
          apply rt_isSome
          set w1 := updateObj w selfId fun d0 =>
            { d0 with parents_and_save_behavior :=
                d0.parents_and_save_behavior ++ [(p, sbKw.getD d.save_behavior)] } with hw1
          have hlook : w1.objs.lookup p =
              if p = selfId then (w.objs.lookup selfId).map (fun d0 =>
                { d0 with parents_and_save_behavior :=
                    d0.parents_and_save_behavior ++ [(p, sbKw.getD d.save_behavior)] })
              else w.objs.lookup p := lookup_updateObj _ _ _ _
          simp only [npBound] at h
          by_cases hps : p = selfId
          · rw [if_pos hps, hd] at hlook
            subst hps
            rw [hd] at h
            simp only [] at h
            have hlen := get_dataobjecttrackers_length w1 p _ hlook
            simp only [List.length_append, List.length_cons, List.length_nil] at hlen
            omega
          · rw [if_neg hps] at hlook
            cases hq : w.objs.lookup p with
            | none =>
              rw [hq] at hlook h
              simp only [] at h
              have hlen := get_dataobjecttrackers_length_none w1 p hlook
              omega
            | some q =>
              rw [hq] at hlook h
              simp only [] at h
              have hlen := get_dataobjecttrackers_length w1 p q hlook
              omega

theorem nd_isSome (fuel : Nat) (w : World) (tId : TrackerId) (dId : ObjId)
    (nameKw : Option String) (sbKw : Option Bool) (h : ndBound w tId ≤ fuel) :
    (new_dataobject fuel w tId dId nameKw sbKw).isSome = true := by
  cases fuel with
  | zero =>
    unfold ndBound at h
    cases hlt : w.trackers.lookup tId <;> rw [hlt] at h <;> simp only [] at h <;> omega
  | succ f =>
    simp only [new_dataobject, protoStep]
    cases hd : w.objs.lookup dId with
    | none => rfl
    | some d =>
      cases hlt : w.trackers.lookup tId with
      | none => rfl
      | some tr =>
        simp only
        cases hhp : has_parent d tr.rawdatacube with
        | true => simp [dataobject_in_tuple_list]
        | false =>
          cases sbKw with
          | some b => simp [dataobject_in_tuple_list]
          | none =>
            simp only [dataobject_in_tuple_list, Bool.false_eq_true, if_neg, hhp]
            simp only [ndBound, hlt] at h
            have hb : npBound (appendEntryW w tId dId nameKw) (some tr.rawdatacube) =
                npBound w (some tr.rawdatacube) :=
              npBound_congr_objs w (appendEntryW w tId dId nameKw) (some tr.rawdatacube)
                (appendEntryW_objs w tId dId nameKw)
            have hnp := np_isSome f (appendEntryW w tId dId nameKw) dId
              (some tr.rawdatacube) none (by rw [hb]; omega)
            simpa [new_parent] using hnp

/-- Claim C5: for every artifact and origin (and every world), the mutually
recursive pair `new_parent` / `new_dataobject` terminates: beyond the explicit
fuel bounds (which depend only on the length of the origin's parent list), the
fueled interpreter always delivers a result (normal or exceptional) instead of
running out of fuel.  Each path appends the pending membership (`origin_links`
pair or registry entry) before recursing, and the recursion from the tracker
loop is cut off by the `has_parent` check on the just-added origin. -/
theorem C5_mutual_recursion_terminates (fuel : Nat) (w : World) (selfId : ObjId)
    (parent : Option ObjId) (sbKw : Option Bool) (tId : TrackerId) (dId : ObjId)
    (nameKw : Option String) (sbKw2 : Option Bool)
    (h1 : npBound w parent ≤ fuel) (h2 : ndBound w tId ≤ fuel) :
    (new_parent fuel w selfId parent sbKw).isSome = true ∧
    (new_dataobject fuel w tId dId nameKw sbKw2).isSome = true :=
  ⟨np_isSome fuel w selfId parent sbKw h1, nd_isSome fuel w tId dId nameKw sbKw2 h2⟩

/-- Claim C5 witness: on a two-object world with one registry, fuel 6 is
enough for both entry points. -/
theorem C5_witness :
    (new_parent 6 ⟨[(0, ⟨"a", true, [], [], none, 1⟩), (1, ⟨"o", true, [], [], some 0, 0⟩)],
        [(0, ⟨1, []⟩)], 3⟩ 0 (some 1) none).isSome = true ∧
    (new_dataobject 6 ⟨[(0, ⟨"a", true, [], [], none, 1⟩), (1, ⟨"o", true, [], [], some 0, 0⟩)],
        [(0, ⟨1, []⟩)], 3⟩ 0 0 none none).isSome = true :=
  C5_mutual_recursion_terminates 6
    ⟨[(0, ⟨"a", true, [], [], none, 1⟩), (1, ⟨"o", true, [], [], some 0, 0⟩)],
      [(0, ⟨1, []⟩)], 3⟩ 0 (some 1) none 0 0 none none (by decide) (by decide)

/-! ## The bidirectional membership invariant (claims C1, C4, C6)

`trackersWF` says the tracker heap has no duplicate identities (two distinct
Python objects never share an identity, so a well-formed heap satisfies it by
construction). -/

def trackersWF (w : World) : Prop := (w.trackers.map Prod.fst).Nodup

/-- One registry entry is backed: the referenced artifact exists and its
`origin_links` contain the registry's owner. -/
def entry_ok (w : World) (owner : ObjId) (e : Entry) : Bool :=
  match w.objs.lookup e.dataobject with
  | some d => decide (owner ∈ get_parent_list d)
  | none => false

/-- The spec's invariant: for every registry and every entry in its
`dataobject_list`, the referenced artifact's parent list contains the
registry's `rawdatacube`. -/
def invariantB (w : World) : Bool :=
  w.trackers.all fun p => p.2.dataobject_list.all fun e => entry_ok w p.2.rawdatacube e

def InvariantP (w : World) : Prop :=
  ∀ p ∈ w.trackers, ∀ e ∈ p.2.dataobject_list,
    ∃ d, w.objs.lookup e.dataobject = some d ∧ p.2.rawdatacube ∈ get_parent_list d

theorem entry_ok_iff (w : World) (r : ObjId) (e : Entry) :
    entry_ok w r e = true ↔
      ∃ d, w.objs.lookup e.dataobject = some d ∧ r ∈ get_parent_list d := by
  cases h : w.objs.lookup e.dataobject <;> simp [entry_ok, h]

theorem invariantB_iff (w : World) : invariantB w = true ↔ InvariantP w := by
  simp [invariantB, InvariantP, List.all_eq_true, entry_ok_iff]

theorem keys_map_update {β : Type} (l : List (Nat × β)) (i : Nat) (f : β → β) :
    (l.map fun p => if p.1 = i then (p.1, f p.2) else p).map Prod.fst = l.map Prod.fst := by
  induction l with
  | nil => rfl
  | cons q t ih => by_cases hq : q.1 = i <;> simp [hq, ih]

theorem lookup_eq_of_mem_nodup {β : Type} {l : List (Nat × β)}
    (hwf : (l.map Prod.fst).Nodup) {p : Nat × β} (hp : p ∈ l) :
    l.lookup p.1 = some p.2 := by
  induction l with
  | nil => cases hp
  | cons q t ih =>
    obtain ⟨k, v⟩ := q
    have hwf' : k ∉ t.map Prod.fst ∧ (t.map Prod.fst).Nodup := by
      rw [List.map_cons] at hwf
      exact List.nodup_cons.mp hwf
    rcases List.mem_cons.mp hp with hq | ht
    · subst hq
      rw [lookup_cons', if_pos rfl]
    · have hne : p.1 ≠ k := by
        intro he
        exact hwf'.1 (he ▸ List.mem_map_of_mem Prod.fst ht)
      rw [lookup_cons', if_neg hne]
      exact ih hwf'.2 ht

/-! Frame facts for the three heap mutators. -/

theorem updateObj_trackers (w : World) (id : ObjId) (f : DObj → DObj) :
    (updateObj w id f).trackers = w.trackers := rfl

theorem updateTracker_objs (w : World) (id : TrackerId) (f : Tracker → Tracker) :
    (updateTracker w id f).objs = w.objs := rfl

theorem log_modification_trackers (w : World) (selfId : ObjId) :
    (log_modification w selfId).trackers = w.trackers := rfl

theorem updateTracker_wf (w : World) (id : TrackerId) (f : Tracker → Tracker)
    (hwf : trackersWF w) : trackersWF (updateTracker w id f) := by
  unfold trackersWF at hwf ⊢
  rw [show (updateTracker w id f).trackers =
      w.trackers.map (fun p => if p.1 = id then (p.1, f p.2) else p) from rfl,
    keys_map_update]
  exact hwf

theorem appendEntryW_wf (w : World) (tId : TrackerId) (dId : ObjId) (nameKw : Option String)
    (hwf : trackersWF w) : trackersWF (appendEntryW w tId dId nameKw) := by
  unfold appendEntryW
  cases w.objs.lookup dId with
  | none => exact hwf
  | some d => exact updateTracker_wf _ _ _ hwf

theorem lookup_appendEntryW (w : World) (tId : TrackerId) (dId : ObjId)
    (nameKw : Option String) (d : DObj) (hd : w.objs.lookup dId = some d) (j : TrackerId) :
    (appendEntryW w tId dId nameKw).trackers.lookup j =
      if j = tId then
        (w.trackers.lookup tId).map fun tr =>
          { tr with dataobject_list :=
              tr.dataobject_list ++ [⟨tr.dataobject_list.length, nameKw.getD d.name, d.ty, dId⟩] }
      else w.trackers.lookup j := by
  unfold appendEntryW
  rw [hd]
  exact lookup_updateTracker _ _ _ _

/-! Invariant preservation for each elementary heap mutation. -/

theorem inv_updateObj (w : World) (a : ObjId) (f : DObj → DObj) (hinv : InvariantP w)
    (hf : ∀ d r, r ∈ get_parent_list d → r ∈ get_parent_list (f d)) :
    InvariantP (updateObj w a f) := by
  intro p hp e he
  rw [updateObj_trackers] at hp
  obtain ⟨d2, hd2, hr⟩ := hinv p hp e he
  rw [lookup_updateObj]
  by_cases hcase : e.dataobject = a
  · have hd2' : List.lookup a w.objs = some d2 := by rw [← hcase]; exact hd2
    rw [if_pos hcase, hd2']
    exact ⟨f d2, rfl, hf d2 _ hr⟩
  · rw [if_neg hcase]
    exact ⟨d2, hd2, hr⟩

theorem inv_insert (w : World) (newId : ObjId) (obj : DObj) (hinv : InvariantP w)
    (hfresh : w.objs.lookup newId = none) :
    InvariantP { w with objs := (newId, obj) :: w.objs } := by
  intro p hp e he
  obtain ⟨d2, hd2, hr⟩ := hinv p hp e he
  have hne : e.dataobject ≠ newId := by
    intro hcontra
    rw [hcontra, hfresh] at hd2
    cases hd2
  refine ⟨d2, ?_, hr⟩
  show List.lookup e.dataobject ((newId, obj) :: w.objs) = some d2
  rw [lookup_cons', if_neg hne]
  exact hd2

theorem inv_appendEntryW (w : World) (tId : TrackerId) (dId : ObjId) (nameKw : Option String)
    (d : DObj) (tr : Tracker) (hwf : trackersWF w) (hinv : InvariantP w)
    (hd : w.objs.lookup dId = some d) (ht : w.trackers.lookup tId = some tr)
    (hpar : tr.rawdatacube ∈ get_parent_list d) :
    InvariantP (appendEntryW w tId dId nameKw) := by
  intro p hp e he
  rw [show (appendEntryW w tId dId nameKw).objs = w.objs from appendEntryW_objs w tId dId nameKw]
  have hp' : p ∈ w.trackers.map (fun q =>
      if q.1 = tId then
        (q.1, { q.2 with dataobject_list :=
            q.2.dataobject_list ++ [⟨q.2.dataobject_list.length, nameKw.getD d.name, d.ty, dId⟩] })
      else q) := by
    unfold appendEntryW at hp
    rw [hd] at hp
    exact hp
  obtain ⟨q, hq, hpq⟩ := List.mem_map.mp hp'
  by_cases hcase : q.1 = tId
  · have hq2 : q.2 = tr := by
      have hlk := lookup_eq_of_mem_nodup hwf hq
      rw [hcase, ht] at hlk
      exact (Option.some.inj hlk).symm
    rw [if_pos hcase] at hpq
    subst hpq
    rcases List.mem_append.mp he with hold | hnew
    · obtain ⟨d2, hd2, hr⟩ := hinv q hq e hold
      exact ⟨d2, hd2, hr⟩
    · have he2 : e = ⟨q.2.dataobject_list.length, nameKw.getD d.name, d.ty, dId⟩ := by
        simpa using hnew
      subst he2
      exact ⟨d, hd, by rw [hq2]; exact hpar⟩
  · rw [if_neg hcase] at hpq
    subst hpq
    exact hinv q hq e he

theorem inv_append_then_parent (w : World) (tId : TrackerId) (dId : ObjId)
    (nameKw : Option String) (d : DObj) (tr : Tracker) (sb' : Bool)
    (hwf : trackersWF w) (hinv : InvariantP w)
    (hd : w.objs.lookup dId = some d) (ht : w.trackers.lookup tId = some tr) :
    InvariantP (updateObj (appendEntryW w tId dId nameKw) dId fun d0 =>
      { d0 with parents_and_save_behavior :=
          d0.parents_and_save_behavior ++ [(tr.rawdatacube, sb')] }) := by
  intro p hp e he
  rw [updateObj_trackers] at hp
  rw [lookup_updateObj,
    show (appendEntryW w tId dId nameKw).objs = w.objs from appendEntryW_objs w tId dId nameKw]
  have hmem : tr.rawdatacube ∈ get_parent_list
      { d with parents_and_save_behavior :=
          d.parents_and_save_behavior ++ [(tr.rawdatacube, sb')] } := by
    simp [get_parent_list]
  have hp' : p ∈ w.trackers.map (fun q =>
      if q.1 = tId then
        (q.1, { q.2 with dataobject_list :=
            q.2.dataobject_list ++ [⟨q.2.dataobject_list.length, nameKw.getD d.name, d.ty, dId⟩] })
      else q) := by
    unfold appendEntryW at hp
    rw [hd] at hp
    exact hp
  obtain ⟨q, hq, hpq⟩ := List.mem_map.mp hp'
  by_cases hcase : q.1 = tId
  · have hq2 : q.2 = tr := by
      have hlk := lookup_eq_of_mem_nodup hwf hq
      rw [hcase, ht] at hlk
      exact (Option.some.inj hlk).symm
    rw [if_pos hcase] at hpq
    subst hpq
    rcases List.mem_append.mp he with hold | hnew
    · obtain ⟨d2, hd2, hr⟩ := hinv q hq e hold
      by_cases hde : e.dataobject = dId
      · have hd2' : d2 = d := by
          rw [hde, hd] at hd2
          exact (Option.some.inj hd2).symm
        rw [if_pos hde, hd]
        refine ⟨_, rfl, ?_⟩
        simp only [get_parent_list, List.map_append]
        exact List.mem_append_left _ (by rw [← hd2']; exact hr)
      · rw [if_neg hde]
        exact ⟨d2, hd2, hr⟩
    · have he2 : e = ⟨q.2.dataobject_list.length, nameKw.getD d.name, d.ty, dId⟩ := by
        simpa using hnew
      subst he2
      rw [if_pos rfl, hd]
      refine ⟨_, rfl, ?_⟩
      rw [hq2]
      exact hmem
  · rw [if_neg hcase] at hpq
    subst hpq
    obtain ⟨d2, hd2, hr⟩ := hinv q hq e he
    by_cases hde : e.dataobject = dId
    · have hd2' : d2 = d := by
        rw [hde, hd] at hd2
        exact (Option.some.inj hd2).symm
      rw [if_pos hde, hd]
      refine ⟨_, rfl, ?_⟩
      simp only [get_parent_list, List.map_append]
      exact List.mem_append_left _ (by rw [← hd2']; exact hr)
    · rw [if_neg hde]
      exact ⟨d2, hd2, hr⟩

/-! ## Execution characterization of the protocol -/

/-- `new_dataobject` with an explicit `save_behavior` kwarg never recurses:
when it returns normally, the artifact and the tracker resolve, the tracker's
owner was already a parent (otherwise the positional-argument `TypeError`
fires), and the entire effect is the single entry append. -/
theorem nd_kw_ok (fuel : Nat) (w : World) (tId : TrackerId) (dId : ObjId)
    (nameKw : Option String) (b : Bool) (w' : World)
    (h : new_dataobject fuel w tId dId nameKw (some b) = some (.ok w')) :
    ∃ d tr, w.objs.lookup dId = some d ∧ w.trackers.lookup tId = some tr ∧
      has_parent d tr.rawdatacube = true ∧ w' = appendEntryW w tId dId nameKw := by
  cases fuel with
  | zero => simp [new_dataobject, protoStep] at h
  | succ f =>
    simp only [new_dataobject, protoStep] at h
    cases hd : w.objs.lookup dId with
    | none => rw [hd] at h; simp at h
    | some d =>
      rw [hd] at h
      simp only [] at h
      cases ht : w.trackers.lookup tId with
      | none => rw [ht] at h; simp at h
      | some tr =>
        rw [ht] at h
        simp only [dataobject_in_tuple_list, Bool.false_eq_true, if_false] at h
        cases hhp : has_parent d tr.rawdatacube with
        | true =>
          rw [hhp] at h
          simp only [if_true] at h
          refine ⟨d, tr, rfl, rfl, hhp, ?_⟩
          have := Option.some.inj h
          exact (Except.ok.inj this).symm
        | false =>
          rw [hhp] at h
          simp at h

theorem contains_append_mono (tr : Tracker) (a : ObjId) (ext : List Entry)
    (h : contains_dataobject tr a = true) :
    contains_dataobject { tr with dataobject_list := tr.dataobject_list ++ ext } a = true := by
  simp only [contains_dataobject, decide_eq_true_eq, List.map_append, List.mem_append] at h ⊢
  exact Or.inl h

theorem contains_of_mem_entry (tr : Tracker) (a : ObjId) (e : Entry)
    (he : e ∈ tr.dataobject_list) (ha : e.dataobject = a) :
    contains_dataobject tr a = true := by
  simp only [contains_dataobject, decide_eq_true_eq]
  exact ha ▸ List.mem_map_of_mem Entry.dataobject he

/-- The tracker loop only appends entries for the artifact being processed,
touches no tracker outside the collected list, and never touches an object. -/
theorem rt_mono (ts : List TrackerId) :
    ∀ (fuel : Nat) (w : World) (a : ObjId) (sb : Bool) (w' : World),
      run_trackers fuel ts w a sb = some (.ok w') →
      w'.objs = w.objs ∧
      (∀ j, j ∉ ts → w'.trackers.lookup j = w.trackers.lookup j) ∧
      (∀ j tr, w.trackers.lookup j = some tr →
        ∃ ext, w'.trackers.lookup j =
          some { tr with dataobject_list := tr.dataobject_list ++ ext } ∧
          ∀ e ∈ ext, e.dataobject = a) := by
  induction ts with
  | nil =>
    intro fuel w a sb w' h
    cases fuel with
    | zero => simp [run_trackers, protoStep] at h
    | succ f =>
      simp only [run_trackers, protoStep] at h
      have hw : w = w' := Except.ok.inj (Option.some.inj h)
      subst hw
      refine ⟨rfl, fun j _ => rfl, fun j tr htr => ⟨[], ?_, by simp⟩⟩
      simpa using htr
  | cons t rest ih =>
    intro fuel w a sb w' h
    cases fuel with
    | zero => simp [run_trackers, protoStep] at h
    | succ f =>
      simp only [run_trackers, protoStep] at h
      by_cases hc : (match w.trackers.lookup t with
                     | some tr => contains_dataobject tr a
                     | none => false) = true
      · rw [if_pos hc] at h
        obtain ⟨hobjs, hout, hmono⟩ := ih f w a sb w' h
        exact ⟨hobjs, fun j hj => hout j (fun hin => hj (List.mem_cons_of_mem t hin)), hmono⟩
      · rw [if_neg hc] at h
        cases hnd : protoStep f w (.ndCall t a none (some sb)) with
        | none => rw [hnd] at h; cases h
        | some r =>
          rw [hnd] at h
          cases r with
          | error e => simp at h
          | ok w1 =>
            obtain ⟨d, tr, hd, ht, hhp, hw1⟩ := nd_kw_ok f w t a none sb w1 hnd
            simp only [] at h
            obtain ⟨hobjs1, hout1, hmono1⟩ := ih f w1 a sb w' h
            subst hw1
            refine ⟨hobjs1.trans (appendEntryW_objs w t a none), ?_, ?_⟩
            · intro j hj
              have hjt : j ≠ t := fun he => hj (he ▸ List.mem_cons_self t rest)
              have hjr : j ∉ rest := fun hin => hj (List.mem_cons_of_mem t hin)
              rw [hout1 j hjr, lookup_appendEntryW w t a none d hd j, if_neg hjt]
            · intro j tr0 htr0
              by_cases hjt : j = t
              · subst hjt
                have htr0' : tr0 = tr := Option.some.inj (htr0.symm.trans ht)
                subst htr0'
                have hlk1 : (appendEntryW w j a none).trackers.lookup j =
                    some { tr0 with dataobject_list := tr0.dataobject_list ++
                      [⟨tr0.dataobject_list.length, (none : Option String).getD d.name, d.ty, a⟩] } := by
                  rw [lookup_appendEntryW w j a none d hd j, if_pos rfl, htr0]
                  rfl
                obtain ⟨ext1, hext1, hexta⟩ := hmono1 j _ hlk1
                refine ⟨⟨tr0.dataobject_list.length, (none : Option String).getD d.name, d.ty, a⟩
                  :: ext1, ?_, ?_⟩
                · rw [hext1]
                  simp [List.append_assoc]
                · intro e he
                  rcases List.mem_cons.mp he with he0 | he1
                  · subst he0; rfl
                  · exact hexta e he1
              · have hlk1 : (appendEntryW w t a none).trackers.lookup j = some tr0 := by
                  rw [lookup_appendEntryW w t a none d hd j, if_neg hjt]
                  exact htr0
                exact hmono1 j tr0 hlk1

/-- Every tracker in the collected list contains the artifact once the loop
completes. -/
theorem rt_contains (ts : List TrackerId) :
    ∀ (fuel : Nat) (w : World) (a : ObjId) (sb : Bool) (w' : World),
      run_trackers fuel ts w a sb = some (.ok w') →
      ∀ j ∈ ts, ∃ tr', w'.trackers.lookup j = some tr' ∧
        contains_dataobject tr' a = true := by
  induction ts with
  | nil => intro fuel w a sb w' _ j hj; cases hj
  | cons t rest ih =>
    intro fuel w a sb w' h j hj
    cases fuel with
    | zero => simp [run_trackers, protoStep] at h
    | succ f =>
      simp only [run_trackers, protoStep] at h
      by_cases hc : (match w.trackers.lookup t with
                     | some tr => contains_dataobject tr a
                     | none => false) = true
      · rw [if_pos hc] at h
        rcases List.mem_cons.mp hj with hjt | hjr
        · subst hjt
          cases ht : w.trackers.lookup j with
          | none => rw [ht] at hc; simp at hc
          | some tr =>
            rw [ht] at hc
            obtain ⟨_, _, hmono⟩ := rt_mono rest f w a sb w' h
            obtain ⟨ext, hext, _⟩ := hmono j tr ht
            exact ⟨_, hext, contains_append_mono tr a ext hc⟩
        · exact ih f w a sb w' h j hjr
      · rw [if_neg hc] at h
        cases hnd : protoStep f w (.ndCall t a none (some sb)) with
        | none => rw [hnd] at h; cases h
        | some r =>
          rw [hnd] at h
          cases r with
          | error e => simp at h
          | ok w1 =>
            obtain ⟨d, tr, hd, ht, hhp, hw1⟩ := nd_kw_ok f w t a none sb w1 hnd
            simp only [] at h
            rcases List.mem_cons.mp hj with hjt | hjr
            · subst hjt
              have hlk1 : w1.trackers.lookup j =
                  some { tr with dataobject_list := tr.dataobject_list ++
                    [⟨tr.dataobject_list.length, (none : Option String).getD d.name, d.ty, a⟩] } := by
                rw [hw1, lookup_appendEntryW w j a none d hd j, if_pos rfl, ht]
                rfl
              obtain ⟨_, _, hmono⟩ := rt_mono rest f w1 a sb w' h
              obtain ⟨ext, hext, _⟩ := hmono j _ hlk1
              refine ⟨_, hext, ?_⟩
              apply contains_append_mono
              exact contains_of_mem_entry _ a
                ⟨tr.dataobject_list.length, (none : Option String).getD d.name, d.ty, a⟩
                (by simp) rfl
            · exact ih f w1 a sb w' h j hjr

/-- The tracker loop preserves the bidirectional invariant and heap
well-formedness: each performed append is guarded by `has_parent` on the
tracker's owner. -/
theorem rt_inv (ts : List TrackerId) :
    ∀ (fuel : Nat) (w : World) (a : ObjId) (sb : Bool) (w' : World),
      trackersWF w → InvariantP w →
      run_trackers fuel ts w a sb = some (.ok w') →
      InvariantP w' ∧ trackersWF w' := by
  induction ts with
  | nil =>
    intro fuel w a sb w' hwf hinv h
    cases fuel with
    | zero => simp [run_trackers, protoStep] at h
    | succ f =>
      simp only [run_trackers, protoStep] at h
      have hw : w = w' := Except.ok.inj (Option.some.inj h)
      subst hw
      exact ⟨hinv, hwf⟩
  | cons t rest ih =>
    intro fuel w a sb w' hwf hinv h
    cases fuel with
    | zero => simp [run_trackers, protoStep] at h
    | succ f =>
      simp only [run_trackers, protoStep] at h
      by_cases hc : (match w.trackers.lookup t with
                     | some tr => contains_dataobject tr a
                     | none => false) = true
      · rw [if_pos hc] at h
        exact ih f w a sb w' hwf hinv h
      · rw [if_neg hc] at h
        cases hnd : protoStep f w (.ndCall t a none (some sb)) with
        | none => rw [hnd] at h; cases h
        | some r =>
          rw [hnd] at h
          cases r with
          | error e => simp at h
          | ok w1 =>
            obtain ⟨d, tr, hd, ht, hhp, hw1⟩ := nd_kw_ok f w t a none sb w1 hnd
            simp only [] at h
            have hpar : tr.rawdatacube ∈ get_parent_list d := by
              simpa [has_parent] using hhp
            have hinv1 : InvariantP w1 := by
              rw [hw1]
              exact inv_appendEntryW w t a none d tr hwf hinv hd ht hpar
            have hwf1 : trackersWF w1 := by
              rw [hw1]
              exact appendEntryW_wf w t a none hwf
            exact ih f w1 a sb w' hwf1 hinv1 h

/-- `new_parent` preserves the invariant and heap well-formedness. -/
theorem np_inv (fuel : Nat) (w : World) (selfId : ObjId) (parent : Option ObjId)
    (sbKw : Option Bool) (w' : World) (hwf : trackersWF w) (hinv : InvariantP w)
    (h : new_parent fuel w selfId parent sbKw = some (.ok w')) :
    InvariantP w' ∧ trackersWF w' := by
  cases fuel with
  | zero => simp [new_parent, protoStep] at h
  | succ f =>
    simp only [new_parent, protoStep] at h
    cases hd : w.objs.lookup selfId with
    | none => rw [hd] at h; simp at h
    | some d =>
      rw [hd] at h
      simp only [] at h
      cases parent with
      | none =>
        have hw : w = w' := Except.ok.inj (Option.some.inj h)
        subst hw
        exact ⟨hinv, hwf⟩
      | some p =>
        simp only [] at h
        by_cases hp : p ∈ get_parent_list d
        · rw [if_pos hp] at h
          simp [change_save_behavior, hp] at h
        · rw [if_neg hp] at h
          have hinv1 : InvariantP (updateObj w selfId fun d0 =>
              { d0 with parents_and_save_behavior :=
                  d0.parents_and_save_behavior ++ [(p, sbKw.getD d.save_behavior)] }) :=
            inv_updateObj w selfId _ hinv (fun d0 r hr => by
              simp only [get_parent_list, List.map_append]
              exact List.mem_append_left _ hr)
          have hwf1 : trackersWF (updateObj w selfId fun d0 =>
              { d0 with parents_and_save_behavior :=
                  d0.parents_and_save_behavior ++ [(p, sbKw.getD d.save_behavior)] }) := by
            unfold trackersWF
            rw [updateObj_trackers]
            exact hwf
          exact rt_inv _ f _ selfId _ w' hwf1 hinv1 h

/-- `new_dataobject` preserves the invariant and heap well-formedness. -/
theorem nd_inv (fuel : Nat) (w : World) (tId : TrackerId) (dId : ObjId)
    (nameKw : Option String) (sbKw : Option Bool) (w' : World)
    (hwf : trackersWF w) (hinv : InvariantP w)
    (h : new_dataobject fuel w tId dId nameKw sbKw = some (.ok w')) :
    InvariantP w' ∧ trackersWF w' := by
  cases fuel with
  | zero => simp [new_dataobject, protoStep] at h
  | succ f =>
    simp only [new_dataobject, protoStep] at h
    cases hd : w.objs.lookup dId with
    | none => rw [hd] at h; simp at h
    | some d =>
      rw [hd] at h
      simp only [] at h
      cases ht : w.trackers.lookup tId with
      | none => rw [ht] at h; simp at h
      | some tr =>
        rw [ht] at h
        simp only [dataobject_in_tuple_list, Bool.false_eq_true, if_false] at h
        cases hhp : has_parent d tr.rawdatacube with
        | true =>
          rw [hhp] at h
          simp only [if_true] at h
          have hw : appendEntryW w tId dId nameKw = w' := Except.ok.inj (Option.some.inj h)
          rw [← hw]
          have hpar : tr.rawdatacube ∈ get_parent_list d := by
            simpa [has_parent] using hhp
          exact ⟨inv_appendEntryW w tId dId nameKw d tr hwf hinv hd ht hpar,
            appendEntryW_wf w tId dId nameKw hwf⟩
        | false =>
          rw [hhp] at h
          simp only [Bool.false_eq_true, if_false] at h
          cases sbKw with
          | some b => simp at h
          | none =>
            cases f with
            | zero => simp [protoStep] at h
            | succ f2 =>
              simp only [protoStep] at h
              have hd1 : (appendEntryW w tId dId nameKw).objs.lookup dId = some d := by
                rw [appendEntryW_objs]
                exact hd
              rw [hd1] at h
              simp only [] at h
              have hnp : tr.rawdatacube ∉ get_parent_list d := by
                simpa [has_parent] using hhp
              rw [if_neg hnp] at h
              have hinv2 : InvariantP (updateObj (appendEntryW w tId dId nameKw) dId fun d0 =>
                  { d0 with parents_and_save_behavior :=
                      d0.parents_and_save_behavior ++
                        [(tr.rawdatacube, (none : Option Bool).getD d.save_behavior)] }) :=
                inv_append_then_parent w tId dId nameKw d tr _ hwf hinv hd ht
              have hwf2 : trackersWF (updateObj (appendEntryW w tId dId nameKw) dId fun d0 =>
                  { d0 with parents_and_save_behavior :=
                      d0.parents_and_save_behavior ++
                        [(tr.rawdatacube, (none : Option Bool).getD d.save_behavior)] }) := by
                unfold trackersWF
                rw [updateObj_trackers]
                exact (appendEntryW_wf w tId dId nameKw hwf)
              exact rt_inv _ f2 _ dId _ w' hwf2 hinv2 h

/-- The three mutating operations of the module: artifact construction,
`new_parent` (add_origin), and `new_dataobject` (register). -/
inductive MutOp where
  | initOp (newId : ObjId) (ty : Nat) (parent : Option ObjId) (save_behavior : Bool) (name : String)
  | addOriginOp (selfId : ObjId) (parent : Option ObjId) (sbKw : Option Bool)
  | registerOp (tId : TrackerId) (dId : ObjId) (nameKw : Option String) (sbKw : Option Bool)

def runMutOp (fuel : Nat) (w : World) : MutOp → Option (Except Err World)
  | .initOp newId ty parent sb nm => DataObject_init fuel w newId ty parent sb nm
  | .addOriginOp selfId parent sbKw => new_parent fuel w selfId parent sbKw
  | .registerOp tId dId nameKw sbKw => new_dataobject fuel w tId dId nameKw sbKw

/-- Construction allocates a fresh Python object, so its identity is not yet
on the heap. -/
def opFresh (w : World) : MutOp → Prop
  | .initOp newId _ _ _ _ => w.objs.lookup newId = none
  | .addOriginOp _ _ _ => True
  | .registerOp _ _ _ _ => True

/-- Claim C1: on a well-formed heap, after any mutating operation (artifact
construction, `new_parent`/add_origin, `new_dataobject`/register) completes
normally, every entry of every registry references an artifact whose
`origin_links` contain that registry's owner. -/
theorem C1_bidirectional_invariant (fuel : Nat) (w : World) (op : MutOp) (w' : World)
    (hwf : trackersWF w) (hinv : invariantB w = true) (hfresh : opFresh w op)
    (hrun : runMutOp fuel w op = some (.ok w')) : invariantB w' = true := by
  rw [invariantB_iff] at hinv ⊢
  cases op with
  | addOriginOp selfId parent sbKw =>
    exact (np_inv fuel w selfId parent sbKw w' hwf hinv hrun).1
  | registerOp tId dId nameKw sbKw =>
    exact (nd_inv fuel w tId dId nameKw sbKw w' hwf hinv hrun).1
  | initOp newId ty parent sb nm =>
    simp only [runMutOp, DataObject_init] at hrun
    cases hnp : new_parent fuel
        { w with objs := (newId, ⟨nm, sb, [], [], none, ty⟩) :: w.objs }
        newId parent (some sb) with
    | none => rw [hnp] at hrun; cases hrun
    | some r =>
      rw [hnp] at hrun
      cases r with
      | error e => simp at hrun
      | ok w1 =>
        have hw' : log_modification w1 newId = w' := Except.ok.inj (Option.some.inj hrun)
        have hinv0 : InvariantP { w with objs := (newId, ⟨nm, sb, [], [], none, ty⟩) :: w.objs } :=
          inv_insert w newId _ hinv hfresh
        have hwf0 : trackersWF { w with objs := (newId, ⟨nm, sb, [], [], none, ty⟩) :: w.objs } :=
          hwf
        obtain ⟨hinv1, hwf1⟩ := np_inv fuel _ newId parent (some sb) w1 hwf0 hinv0 hnp
        rw [← hw']
        exact inv_updateObj w1 newId _ hinv1 (fun d0 r hr => hr)

/-- Claim C1 witness: constructing an artifact (id 1) with origin `o` (id 0,
owning an empty registry) on a well-formed invariant-satisfying heap. -/
theorem C1_witness :
    invariantB ⟨[(1, ⟨"x", false, [(0, false)], [4], none, 7⟩),
                 (0, ⟨"o", true, [], [], some 0, 0⟩)],
      [(0, ⟨0, [⟨0, "x", 7, 1⟩]⟩)], 5⟩ = true :=
  C1_bidirectional_invariant 3
    ⟨[(0, ⟨"o", true, [], [], some 0, 0⟩)], [(0, ⟨0, []⟩)], 5⟩
    (.initOp 1 7 (some 0) false "x")
    ⟨[(1, ⟨"x", false, [(0, false)], [4], none, 7⟩),
      (0, ⟨"o", true, [], [], some 0, 0⟩)],
      [(0, ⟨0, [⟨0, "x", 7, 1⟩]⟩)], 5⟩
    (by simp only [trackersWF]; decide) (by decide)
    (by simp only [opFresh]; decide) (by decide)

/-- Claim C4: constructing an artifact with a non-null origin `o` that owns a
registry, when it completes normally, leaves `o`'s registry containing the new
artifact, the artifact with `o` among its origins, and the per-origin save
behavior equal to the supplied flag (`__init__` always forwards
`save_behavior=self.save_behavior`, whose default is `True`). -/
theorem C4_construction_postcondition (fuel : Nat) (w : World) (oId tId newId ty : Nat)
    (oObj : DObj) (b : Bool) (nm : String) (w' : World)
    (ho : w.objs.lookup oId = some oObj) (htr : oObj.dataobjecttracker = some tId)
    (hfresh : w.objs.lookup newId = none)
    (h : DataObject_init fuel w newId ty (some oId) b nm = some (.ok w')) :
    (∃ tr', w'.trackers.lookup tId = some tr' ∧ contains_dataobject tr' newId = true) ∧
    (∃ d', w'.objs.lookup newId = some d' ∧ has_parent d' oId = true ∧
      get_save_behavior d' oId = .ok b) := by
  have hne : oId ≠ newId := by
    intro he
    rw [he, hfresh] at ho
    cases ho
  simp only [DataObject_init] at h
  cases hnp : new_parent fuel
      { w with objs := (newId, ⟨nm, b, [], [], none, ty⟩) :: w.objs }
      newId (some oId) (some b) with
  | none => rw [hnp] at h; cases h
  | some r =>
    rw [hnp] at h
    cases r with
    | error e => simp at h
    | ok w1 =>
      have hw' : log_modification w1 newId = w' := Except.ok.inj (Option.some.inj h)
      have hd0 : List.lookup newId ((newId, (⟨nm, b, [], [], none, ty⟩ : DObj)) :: w.objs) =
          some ⟨nm, b, [], [], none, ty⟩ := by
        rw [lookup_cons', if_pos rfl]
      have ho0 : List.lookup oId ((newId, (⟨nm, b, [], [], none, ty⟩ : DObj)) :: w.objs) =
          some oObj := by
        rw [lookup_cons', if_neg hne]
        exact ho
      cases fuel with
      | zero => simp [new_parent, protoStep] at hnp
      | succ f =>
        simp only [new_parent, protoStep] at hnp
        rw [show ({ w with objs := (newId, ⟨nm, b, [], [], none, ty⟩) :: w.objs } : World).objs.lookup newId =
            some ⟨nm, b, [], [], none, ty⟩ from hd0] at hnp
        simp only [Option.getD_some] at hnp
        rw [if_neg (show oId ∉ get_parent_list ⟨nm, b, [], [], none, ty⟩ by
          simp [get_parent_list])] at hnp
        have ho1 : (updateObj { w with objs := (newId, ⟨nm, b, [], [], none, ty⟩) :: w.objs }
            newId fun d0 => { d0 with parents_and_save_behavior :=
              d0.parents_and_save_behavior ++ [(oId, b)] }).objs.lookup oId = some oObj := by
          rw [lookup_updateObj, if_neg hne]
          exact ho0
        have hts : tId ∈ get_dataobjecttrackers
            (updateObj { w with objs := (newId, ⟨nm, b, [], [], none, ty⟩) :: w.objs }
              newId fun d0 => { d0 with parents_and_save_behavior :=
                d0.parents_and_save_behavior ++ [(oId, b)] }) oId := by
          simp only [get_dataobjecttrackers, ho1, htr]
          exact List.mem_append_left _ (List.mem_singleton.mpr rfl)
        obtain ⟨hobjs, _, _⟩ := rt_mono _ f _ newId b w1 hnp
        obtain ⟨tr', htr', hcont⟩ := rt_contains _ f _ newId b w1 hnp tId hts
        constructor
        · refine ⟨tr', ?_, hcont⟩
          rw [← hw', log_modification_trackers]
          exact htr'
        · have hd1 : w1.objs.lookup newId =
              some ⟨nm, b, [(oId, b)], [], none, ty⟩ := by
            rw [hobjs, lookup_updateObj, if_pos rfl, hd0]
            rfl
          refine ⟨⟨nm, b, [(oId, b)], [w1.logIndex - 1], none, ty⟩, ?_, ?_, ?_⟩
          · rw [← hw']
            show (updateObj w1 newId fun d =>
              { d with modification_log := d.modification_log ++ [w1.logIndex - 1] }).objs.lookup
                newId = _
            rw [lookup_updateObj, if_pos rfl, hd1]
            rfl
          · simp [has_parent, get_parent_list]
          · simp [get_save_behavior, List.find?]

/-- Claim C4 witness: origin id 0 owns empty registry 0; constructing
artifact id 1 with `save_behavior=false` registers it and stores the flag. -/
theorem C4_witness :
    (∃ tr', (⟨[(1, ⟨"x", false, [(0, false)], [4], none, 7⟩),
               (0, ⟨"o", true, [], [], some 0, 0⟩)],
        [(0, ⟨0, [⟨0, "x", 7, 1⟩]⟩)], 5⟩ : World).trackers.lookup 0 = some tr' ∧
      contains_dataobject tr' 1 = true) ∧
    (∃ d', (⟨[(1, ⟨"x", false, [(0, false)], [4], none, 7⟩),
              (0, ⟨"o", true, [], [], some 0, 0⟩)],
        [(0, ⟨0, [⟨0, "x", 7, 1⟩]⟩)], 5⟩ : World).objs.lookup 1 = some d' ∧
      has_parent d' 0 = true ∧ get_save_behavior d' 0 = .ok false) :=
  C4_construction_postcondition 3
    ⟨[(0, ⟨"o", true, [], [], some 0, 0⟩)], [(0, ⟨0, []⟩)], 5⟩ 0 0 1 7
    ⟨"o", true, [], [], some 0, 0⟩ false "x"
    ⟨[(1, ⟨"x", false, [(0, false)], [4], none, 7⟩),
      (0, ⟨"o", true, [], [], some 0, 0⟩)],
      [(0, ⟨0, [⟨0, "x", 7, 1⟩]⟩)], 5⟩
    (by decide) (by decide) (by decide) (by decide)

/-- Claim C6, amended: a completed `a.add_origin(o, b)` call registers `a` in
exactly the one-hop registries collected from `o` after the origin append —
the registry `o` itself owns (if any) plus the registries owned by the members
of `o`'s own parent list — and in no other registry; afterwards every
collected registry contains `a`.  The artifact's own registry is not among
the targets (the collection starts from `o`, not from `a`). -/
theorem C6_one_hop_amended (fuel : Nat) (w : World) (a o : ObjId) (b : Bool) (d : DObj)
    (w' : World) (hd : w.objs.lookup a = some d) (hno : o ∉ get_parent_list d)
    (h : new_parent fuel w a (some o) (some b) = some (.ok w')) :
    (∀ j, j ∉ get_dataobjecttrackers (updateObj w a fun d0 =>
        { d0 with parents_and_save_behavior := d0.parents_and_save_behavior ++ [(o, b)] }) o →
      w'.trackers.lookup j = w.trackers.lookup j) ∧
    (∀ j ∈ get_dataobjecttrackers (updateObj w a fun d0 =>
        { d0 with parents_and_save_behavior := d0.parents_and_save_behavior ++ [(o, b)] }) o,
      ∃ tr', w'.trackers.lookup j = some tr' ∧ contains_dataobject tr' a = true) := by
  cases fuel with
  | zero => simp [new_parent, protoStep] at h
  | succ f =>
    simp only [new_parent, protoStep] at h
    rw [hd] at h
    simp only [Option.getD_some] at h
    rw [if_neg hno] at h
    obtain ⟨_, huntouched, _⟩ := rt_mono _ f _ a b w' h
    constructor
    · intro j hj
      rw [huntouched j hj]
      rfl
    · intro j hj
      exact rt_contains _ f _ a b w' h j hj

/-- Claim C6 amended, witness: the counterexample world — the collected
one-hop registries of `o` (id 1) are registry 0 (owned by `o`) and registry 1
(owned by `o`'s parent `g`); both contain `a` afterwards and no other tracker
changes. -/
theorem C6_witness :
    (∀ j, j ∉ get_dataobjecttrackers (updateObj
        ⟨[(0, ⟨"a", true, [(2, true)], [], none, 7⟩),
          (1, ⟨"o", true, [(2, true)], [], some 0, 0⟩),
          (2, ⟨"g", true, [], [], some 1, 0⟩)],
          [(0, ⟨1, []⟩), (1, ⟨2, []⟩)], 3⟩ 0 fun d0 =>
        { d0 with parents_and_save_behavior := d0.parents_and_save_behavior ++ [(1, true)] }) 1 →
      (⟨[(0, ⟨"a", true, [(2, true), (1, true)], [], none, 7⟩),
         (1, ⟨"o", true, [(2, true)], [], some 0, 0⟩),
         (2, ⟨"g", true, [], [], some 1, 0⟩)],
        [(0, ⟨1, [⟨0, "a", 7, 0⟩]⟩), (1, ⟨2, [⟨0, "a", 7, 0⟩]⟩)], 3⟩ : World).trackers.lookup j =
      (⟨[(0, ⟨"a", true, [(2, true)], [], none, 7⟩),
         (1, ⟨"o", true, [(2, true)], [], some 0, 0⟩),
         (2, ⟨"g", true, [], [], some 1, 0⟩)],
        [(0, ⟨1, []⟩), (1, ⟨2, []⟩)], 3⟩ : World).trackers.lookup j) ∧
    (∀ j ∈ get_dataobjecttrackers (updateObj
        ⟨[(0, ⟨"a", true, [(2, true)], [], none, 7⟩),
          (1, ⟨"o", true, [(2, true)], [], some 0, 0⟩),
          (2, ⟨"g", true, [], [], some 1, 0⟩)],
          [(0, ⟨1, []⟩), (1, ⟨2, []⟩)], 3⟩ 0 fun d0 =>
        { d0 with parents_and_save_behavior := d0.parents_and_save_behavior ++ [(1, true)] }) 1,
      ∃ tr', (⟨[(0, ⟨"a", true, [(2, true), (1, true)], [], none, 7⟩),
         (1, ⟨"o", true, [(2, true)], [], some 0, 0⟩),
         (2, ⟨"g", true, [], [], some 1, 0⟩)],
        [(0, ⟨1, [⟨0, "a", 7, 0⟩]⟩), (1, ⟨2, [⟨0, "a", 7, 0⟩]⟩)], 3⟩ : World).trackers.lookup j =
          some tr' ∧ contains_dataobject tr' 0 = true) :=
  C6_one_hop_amended 5
    ⟨[(0, ⟨"a", true, [(2, true)], [], none, 7⟩),
      (1, ⟨"o", true, [(2, true)], [], some 0, 0⟩),
      (2, ⟨"g", true, [], [], some 1, 0⟩)],
      [(0, ⟨1, []⟩), (1, ⟨2, []⟩)], 3⟩ 0 1 true ⟨"a", true, [(2, true)], [], none, 7⟩
    ⟨[(0, ⟨"a", true, [(2, true), (1, true)], [], none, 7⟩),
      (1, ⟨"o", true, [(2, true)], [], some 0, 0⟩),
      (2, ⟨"g", true, [], [], some 1, 0⟩)],
      [(0, ⟨1, [⟨0, "a", 7, 0⟩]⟩), (1, ⟨2, [⟨0, "a", 7, 0⟩]⟩)], 3⟩
    (by decide) (by decide) (by decide)

end Py4DSTEM
